import Mathlib

/-!
Verification of the screenshot orchestration engine (screenshotter module):
geometry and validation utilities, the FIFO task queue, the freeze/restore
lifecycle, the mask coordinator, and the capture sequencing of the
Screenshotter orchestrator. JavaScript numbers are modelled as rationals
(exact arithmetic; the inputs of interest are finite numerals), stateful
page interactions as explicit state passing and event traces, and fallible
code as Except values.
-/

namespace Screenshot

/-- A rectangle, as the plain numeric value type of the source. -/
structure Rect where
  x : Rat
  y : Rat
  width : Rat
  height : Rat
deriving DecidableEq, Repr

/-- A size, as the plain numeric value type of the source. -/
structure Size where
  width : Rat
  height : Rat
deriving DecidableEq, Repr

/-- A point, for the window scroll offset. -/
structure Point where
  x : Rat
  y : Rat
deriving DecidableEq, Repr

/-- Embedding of trimClipToSize: clamp both corners of the clip into
the bounds, recompute width and height, and fail when the JS truthiness
check on width and height fails, i.e. exactly when one of them is zero. -/
def trimClipToSize (clip : Rect) (size : Size) : Except String Rect :=
  let p1x := max 0 (min clip.x size.width)
  let p1y := max 0 (min clip.y size.height)
  let p2x := max 0 (min (clip.x + clip.width) size.width)
  let p2y := max 0 (min (clip.y + clip.height) size.height)
  let result : Rect := ⟨p1x, p1y, p2x - p1x, p2y - p1y⟩
  if result.width = 0 ∨ result.height = 0 then
    Except.error "Clipped area is either empty or outside the resulting image"
  else
    Except.ok result

/-- Modelled from the spec: the helper enclosingIntRect comes from a module
that is not among these sources; per the spec, capture-element rounds the
document-coordinate box outward to an enclosing integer rect. -/
def enclosingIntRect (r : Rect) : Rect :=
  ⟨((⌊r.x⌋ : Int) : Rat), ((⌊r.y⌋ : Int) : Rat),
   ((⌈r.x + r.width⌉ : Int) : Rat) - ((⌊r.x⌋ : Int) : Rat),
   ((⌈r.y + r.height⌉ : Int) : Rat) - ((⌊r.y⌋ : Int) : Rat)⟩

/-- A JavaScript value as far as validation observes it: a number, or a
non-number value identified by its typeof tag. Absent (undefined) option
fields are modelled with Option. -/
inductive JSVal where
  | num (q : Rat)
  | other (tag : String)
deriving DecidableEq, Repr

/-- The typeof v === number test. -/
def JSVal.isNum : JSVal → Bool
  | .num _ => true
  | .other _ => false

/-- A clip record whose fields are raw JS values, as validation sees them. -/
structure JSClip where
  x : JSVal
  y : JSVal
  width : JSVal
  height : JSVal
deriving DecidableEq, Repr

/-- The numeric rect of a clip whose four fields are all numbers. -/
def JSClip.toRect : JSClip → Option Rect
  | ⟨.num x, .num y, .num w, .num h⟩ => some ⟨x, y, w, h⟩
  | _ => none

/-- One mask entry: a frame (by id) and a selector string. -/
structure MaskPair where
  frame : Nat
  selector : String
deriving DecidableEq, Repr

/-- The outcome of resolveFrameForSelectorNoWait: the frame that actually
owns the selector and the parsed selector. -/
structure ResolvedPair where
  frame : Nat
  parsed : String
deriving DecidableEq, Repr

/-- The options record of the source, with the fields validation inspects
kept as raw JS values. -/
structure ScreenshotOptions where
  type : Option String
  quality : Option JSVal
  omitBackground : Bool
  animations : String
  mask : List MaskPair
  fullPage : Bool
  clip : Option JSClip
  size : Option String
  fonts : String
  caret : String
deriving DecidableEq, Repr

/-- The clip checks of validateScreenshotOptions, in assert order: all four
fields numeric, then width and height non-zero. -/
def validateClip (o : ScreenshotOptions) (format : String) : Except String String :=
  match o.clip with
  | none => Except.ok format
  | some c =>
    if c.x.isNum then
      if c.y.isNum then
        if c.width.isNum then
          if c.height.isNum then
            if c.width = JSVal.num 0 then
              Except.error "Expected options.clip.width not to be 0."
            else if c.height = JSVal.num 0 then
              Except.error "Expected options.clip.height not to be 0."
            else Except.ok format
          else Except.error "Expected options.clip.height to be a number"
        else Except.error "Expected options.clip.width to be a number"
      else Except.error "Expected options.clip.y to be a number"
    else Except.error "Expected options.clip.x to be a number"

/-- The quality checks of validateScreenshotOptions, in assert order:
jpeg format, then numeric, then integer, then range, then the clip checks. -/
def validateQuality (o : ScreenshotOptions) (format : String) : Except String String :=
  match o.quality with
  | none => validateClip o format
  | some v =>
    if format = "jpeg" then
      match v with
      | .num q =>
        if q.den = 1 then
          if 0 ≤ q ∧ q ≤ 100 then validateClip o format
          else Except.error "Expected options.quality to be between 0 and 100 inclusive"
        else Except.error "Expected options.quality to be an integer"
      | .other tag =>
        Except.error ("Expected options.quality to be a number but found " ++ tag)
    else Except.error ("options.quality is unsupported for the " ++ format ++ " screenshots")

/-- Embedding of validateScreenshotOptions: the type block is guarded by JS
truthiness, so a present but empty (falsy) type string skips the type
assert and leaves the format unset; the format then defaults to png before
the quality and clip checks run. -/
def validateScreenshotOptions (o : ScreenshotOptions) : Except String String :=
  match o.type with
  | some t =>
    if t = "" then validateQuality o "png"
    else if t = "png" ∨ t = "jpeg" then validateQuality o t
    else Except.error ("Unknown options.type value: " ++ t)
  | none => validateQuality o "png"

/-- The format validation resolves from the type option: a present, truthy
(non-empty) type wins, otherwise png. -/
def resolvedFormat (o : ScreenshotOptions) : String :=
  match o.type with
  | some t => if t = "" then "png" else t
  | none => "png"

/-- MultiMap.set: append the value to the list at the key, keeping keys in
first-insertion order. -/
def mmSet (m : List (Nat × List String)) (k : Nat) (v : String) : List (Nat × List String) :=
  if m.any (fun kv => kv.1 = k) then
    m.map (fun kv => if kv.1 = k then (kv.1, kv.2 ++ [v]) else kv)
  else m ++ [(k, [v])]

/-- One resolution step: a pair that resolves is grouped under its owning
frame, a pair that does not resolve is dropped. -/
def maskFold (resolve : MaskPair → Option ResolvedPair)
    (acc : List (Nat × List String)) (p : MaskPair) : List (Nat × List String) :=
  match resolve p with
  | some rp => mmSet acc rp.frame rp.parsed
  | none => acc

/-- Embedding of Screenshotter maskElements: with an empty mask list return
false at once; otherwise resolve every pair (dropping the pairs that do not
resolve), group the parsed selectors by owning frame, and return true
together with the per-frame maskSelectors calls that are issued. -/
def maskElements (resolve : MaskPair → Option ResolvedPair) (mask : List MaskPair) :
    Bool × List (Nat × List String) :=
  if mask.isEmpty then (false, [])
  else
    let m := mask.foldl (maskFold resolve) []
    (true, m)

/-- The page mutations and calls a capture performs, in order. -/
inductive Ev where
  | freeze
  | scrollIntoView
  | setBackground
  | mask
  | capture
  | unmask
  | restoreBackground
  | restore
deriving DecidableEq, Repr

/-- Embedding of the private Screenshotter screenshot method as its ordered
mutation/call sequence: background override (when omitBackground and png),
then mask application (when some pair resolved), then the capture
primitive, then highlight clearing (when maskElements returned true), then
background restoration. -/
def screenshotInner (resolve : MaskPair → Option ResolvedPair) (o : ScreenshotOptions)
    (format : String) : List Ev :=
  let shouldSetDefaultBackground := o.omitBackground ∧ format = "png"
  let mr := maskElements resolve o.mask
  (if shouldSetDefaultBackground then [Ev.setBackground] else []) ++
  (if mr.2.isEmpty then [] else [Ev.mask]) ++
  [Ev.capture] ++
  (if mr.1 then [Ev.unmask] else []) ++
  (if shouldSetDefaultBackground then [Ev.restoreBackground] else [])

/-- Which rect argument the capture primitive receives. -/
inductive Target where
  | document (r : Rect)
  | viewport (r : Rect)
deriving DecidableEq, Repr

/-- The rect held by a target. -/
def Target.rect : Target → Rect
  | .document r => r
  | .viewport r => r

/-- The live page data the queued task reads: viewport size, full page
size, the element bounding box (for capture-element) and the scroll
offset. -/
structure Env where
  viewportSize : Size
  fullPageSize : Size
  boundingBox : Option Rect
  scrollOffset : Point
deriving DecidableEq, Repr

/-- The queued task of screenshotPage: freeze, then compute the target rect
(full page or viewport, trimmed by the clip when present), then the inner
capture sequence, then restore. Errors (trim failure; a non-numeric clip,
unreachable behind validation) keep the trace accumulated so far. -/
def pageTask (resolve : MaskPair → Option ResolvedPair) (env : Env)
    (o : ScreenshotOptions) (format : String) : List Ev × Except String (Target × Bool) :=
  if o.fullPage then
    let fullPageSize := env.fullPageSize
    let documentRect : Rect := ⟨0, 0, fullPageSize.width, fullPageSize.height⟩
    let fits : Bool :=
      if fullPageSize.width ≤ env.viewportSize.width ∧
         fullPageSize.height ≤ env.viewportSize.height then true else false
    match o.clip with
    | none =>
      ([Ev.freeze] ++ screenshotInner resolve o format ++ [Ev.restore],
        Except.ok (Target.document documentRect, fits))
    | some c =>
      match c.toRect with
      | none => ([Ev.freeze], Except.error "Expected options.clip fields to be numbers")
      | some cr =>
        match trimClipToSize cr ⟨documentRect.width, documentRect.height⟩ with
        | Except.error e => ([Ev.freeze], Except.error e)
        | Except.ok r =>
          ([Ev.freeze] ++ screenshotInner resolve o format ++ [Ev.restore],
            Except.ok (Target.document r, fits))
  else
    match o.clip with
    | none =>
      ([Ev.freeze] ++ screenshotInner resolve o format ++ [Ev.restore],
        Except.ok (Target.viewport ⟨0, 0, env.viewportSize.width, env.viewportSize.height⟩, true))
    | some c =>
      match c.toRect with
      | none => ([Ev.freeze], Except.error "Expected options.clip fields to be numbers")
      | some cr =>
        match trimClipToSize cr env.viewportSize with
        | Except.error e => ([Ev.freeze], Except.error e)
        | Except.ok r =>
          ([Ev.freeze] ++ screenshotInner resolve o format ++ [Ev.restore],
            Except.ok (Target.viewport r, true))

/-- The queued task of screenshotElement: freeze, scroll the element into
view, then read its bounding box and fail on absence or zero width or zero
height; on success translate to document coordinates, round outward, and
run the inner capture sequence followed by restore. -/
def elementTask (resolve : MaskPair → Option ResolvedPair) (env : Env)
    (o : ScreenshotOptions) (format : String) : List Ev × Except String (Rect × Bool) :=
  let t1 := [Ev.freeze, Ev.scrollIntoView]
  match env.boundingBox with
  | none => (t1, Except.error "Node is either not visible or not an HTMLElement")
  | some bb =>
    if bb.width = 0 then (t1, Except.error "Node has 0 width.")
    else if bb.height = 0 then (t1, Except.error "Node has 0 height.")
    else
      let fits : Bool :=
        if bb.width ≤ env.viewportSize.width ∧ bb.height ≤ env.viewportSize.height
        then true else false
      let documentRect : Rect :=
        ⟨bb.x + env.scrollOffset.x, bb.y + env.scrollOffset.y, bb.width, bb.height⟩
      (t1 ++ screenshotInner resolve o format ++ [Ev.restore],
        Except.ok (enclosingIntRect documentRect, fits))

/-- Embedding of screenshotPage: synchronous validation, and only on
success is the capture task enqueued (first component: whether a task was
posted to the queue). -/
def screenshotPage (resolve : MaskPair → Option ResolvedPair) (env : Env)
    (o : ScreenshotOptions) : Bool × (List Ev × Except String (Target × Bool)) :=
  match validateScreenshotOptions o with
  | Except.error e => (false, ([], Except.error e))
  | Except.ok format => (true, pageTask resolve env o format)

/-- Embedding of screenshotElement: synchronous validation, and only on
success is the capture task enqueued. -/
def screenshotElement (resolve : MaskPair → Option ResolvedPair) (env : Env)
    (o : ScreenshotOptions) : Bool × (List Ev × Except String (Rect × Bool)) :=
  match validateScreenshotOptions o with
  | Except.error e => (false, ([], Except.error e))
  | Except.ok format => (true, elementTask resolve env o format)

/-- Start and settlement events of the queued operations, by position. -/
inductive QEv where
  | started (i : Nat)
  | settled (i : Nat)
deriving DecidableEq, Repr

/-- A settled promise as the chain observes it: the accumulated event trace
up to its settlement, and its outcome. -/
structure TracedPromise where
  trace : List QEv
  result : Except String Unit
deriving Repr

/-- Embedding of the TaskQueue: its private chain promise. -/
structure TaskQueue where
  chain : TracedPromise
deriving Repr

/-- Promise.resolve(): an already fulfilled chain with no events. -/
def TaskQueue.new : TaskQueue := ⟨⟨[], Except.ok ()⟩⟩

/-- chain.then(task): when the chain is fulfilled the task body runs, its
start and settlement appended to the trace, and the resulting promise
carries the outcome of the task alone; a rejected chain would skip the
task and propagate its rejection. -/
def pThen (chain : TracedPromise) (i : Nat) (o : Except String Nat) :
    List QEv × Except String Nat :=
  match chain.result with
  | Except.ok _ => (chain.trace ++ [QEv.started i, QEv.settled i], o)
  | Except.error e => (chain.trace, Except.error e)

/-- result.catch(noop): fulfilled either way. -/
def pCatch (tr : List QEv) (r : Except String Nat) : TracedPromise :=
  match r with
  | Except.ok _ => ⟨tr, Except.ok ()⟩
  | Except.error _ => ⟨tr, Except.ok ()⟩

/-- Embedding of TaskQueue.postTask: chain the task after the current
chain, store the caught continuation as the new chain, and hand the
uncaught result back to the caller. -/
def TaskQueue.postTask (q : TaskQueue) (i : Nat) (o : Except String Nat) :
    Except String Nat × TaskQueue :=
  let p := pThen q.chain i o
  (p.2, ⟨pCatch p.1 p.2⟩)

/-- Post a list of operations (their outcomes given in submission order)
starting at position i, collecting each postTask return value. -/
def postAllFrom (q : TaskQueue) (i : Nat) :
    List (Except String Nat) → List (Except String Nat) × TaskQueue
  | [] => ([], q)
  | o :: rest =>
    let p := q.postTask i o
    let pr := postAllFrom p.2 (i + 1) rest
    (p.1 :: pr.1, pr.2)

/-- Post a list of operations on a fresh queue. -/
def postAll (tasks : List (Except String Nat)) : List (Except String Nat) × TaskQueue :=
  postAllFrom TaskQueue.new 0 tasks

/-- The fully serialized trace of n operations starting at position s:
each operation starts and settles before the next one starts. -/
def qTrace (s : Nat) : Nat → List QEv
  | 0 => []
  | Nat.succ m => QEv.started s :: QEv.settled s :: qTrace (s + 1) m

/-- The per-frame realm state the freeze lifecycle touches: the injected
style tag, the animations of the frame (by playing flag), the attached
listeners, the installed cleanup handle and the suspended-animation
indices its closure captured. -/
structure FrameState where
  styleAttached : Bool
  animationsPlaying : List Bool
  listenersAttached : Bool
  handleInstalled : Bool
  suspendedIdx : List Nat
deriving DecidableEq, Repr

/-- Play every suspended animation. -/
def resumeAll (idxs : List Nat) (anims : List Bool) : List Bool :=
  idxs.foldl (fun a i => a.set i true) anims

/-- Embedding of the installed window cleanup handle, guarded as the
restore script guards it: when the handle is present, remove the injected
style tag, resume the suspended infinite animations, detach the listeners
and delete the handle itself; when absent, do nothing. -/
def cleanupScreenshot (s : FrameState) : FrameState :=
  if s.handleInstalled then
    { styleAttached := false
      animationsPlaying := resumeAll s.suspendedIdx s.animationsPlaying
      listenersAttached := false
      handleInstalled := false
      suspendedIdx := s.suspendedIdx }
  else s

/-- Embedding of restorePageAfterScreenshot: invoke the guarded cleanup
in every frame. -/
def restorePageAfterScreenshot (frames : List FrameState) : List FrameState :=
  frames.map cleanupScreenshot

/-- An animation as the freeze script observes it. -/
structure Animation where
  id : Nat
  hasEffect : Bool
  playbackRate : Rat
  finiteEndTime : Bool
deriving DecidableEq, Repr

/-- The calls the animation handler makes on an animation. -/
inductive AnimAct where
  | finish (a : Animation)
  | cancel (a : Animation)
deriving DecidableEq, Repr

/-- The in-realm state of one freeze installation: the set of suspended
infinite animations (insertion order kept) and the calls issued so far. -/
structure AnimState where
  suspended : List Animation
  actions : List AnimAct
deriving DecidableEq, Repr

/-- One loop iteration of handleAnimations: skip animations with no
effect, a zero playback rate, or already recorded as suspended; finish the
finite ones; cancel the infinite ones and record them for resumption. -/
def handleOne (s : AnimState) (a : Animation) : AnimState :=
  if a.hasEffect = false ∨ a.playbackRate = 0 ∨ a ∈ s.suspended then s
  else if a.finiteEndTime then { s with actions := s.actions ++ [AnimAct.finish a] }
  else { suspended := s.suspended ++ [a], actions := s.actions ++ [AnimAct.cancel a] }

/-- One invocation of handleAnimations over the animations of a root. -/
def handleAnimations (s : AnimState) (anims : List Animation) : AnimState :=
  anims.foldl handleOne s

/-- All handler invocations of one freeze installation, in order: the
initial sweep over every root plus every listener-triggered rerun. -/
def handleAll (invocations : List (List Animation)) : AnimState :=
  invocations.foldl handleAnimations ⟨[], []⟩

/-- The per-animation invariant of the freeze installation: an animation is
cancelled at most once, a cancelled animation is recorded as suspended, and
an animation with no effect or a zero playback rate is neither finished nor
cancelled. -/
def CancelInv (a : Animation) (s : AnimState) : Prop :=
  s.actions.count (AnimAct.cancel a) ≤ 1 ∧
  (AnimAct.cancel a ∈ s.actions → a ∈ s.suspended) ∧
  ((a.hasEffect = false ∨ a.playbackRate = 0) →
    AnimAct.cancel a ∉ s.actions ∧ AnimAct.finish a ∉ s.actions)

/-- A resolver under which no selector resolves. -/
def rnone : MaskPair → Option ResolvedPair := fun _ => none

/-- A resolver under which every selector resolves in its own frame. -/
def rsame : MaskPair → Option ResolvedPair := fun p => some ⟨p.frame, p.selector⟩

/-- A concrete live-page environment. -/
def env0 : Env := ⟨⟨100, 100⟩, ⟨200, 300⟩, some ⟨5, 5, 20, 20⟩, ⟨0, 0⟩⟩

/-- A concrete environment whose element bounding box has zero width. -/
def envZeroW : Env := ⟨⟨100, 100⟩, ⟨200, 300⟩, some ⟨5, 5, 0, 20⟩, ⟨0, 0⟩⟩

/-- The all-default options record. -/
def o0 : ScreenshotOptions :=
  ⟨none, none, false, "allow", [], false, none, none, "nowait", "hide"⟩

/-- Valid options with a clip whose width and height are negative: the
validation checks (all fields numeric, width and height non-zero) accept
it. -/
def oNegClip : ScreenshotOptions :=
  ⟨none, none, false, "allow", [], false,
    some ⟨JSVal.num 10, JSVal.num 10, JSVal.num (-5), JSVal.num (-5)⟩, none, "nowait", "hide"⟩

/-- Options with an invalid type value. -/
def oBadType : ScreenshotOptions :=
  ⟨some "gif", none, false, "allow", [], false, none, none, "nowait", "hide"⟩

/-- Options whose type is present but falsy: the empty string. -/
def oEmptyType : ScreenshotOptions :=
  ⟨some "", none, false, "allow", [], false, none, none, "nowait", "hide"⟩

/-- A mask pair no resolver needs to resolve. -/
def p0 : MaskPair := ⟨0, "sel"⟩

/-- Options asking for both a mask and a transparent background. -/
def oMaskBg : ScreenshotOptions :=
  ⟨none, none, true, "allow", [p0], false, none, none, "nowait", "hide"⟩

/-- A frame realm in which no cleanup handle is installed. -/
def fs0 : FrameState := ⟨true, [false, true], true, false, [0]⟩

/-- An infinite animation with effect and non-zero playback rate. -/
def aInf : Animation := ⟨0, true, 1, false⟩

/-- A finite animation with effect and non-zero playback rate. -/
def aFin : Animation := ⟨1, true, 1, true⟩

/-- An animation with a zero playback rate. -/
def aBad : Animation := ⟨2, true, 0, false⟩

/-- Three queued operations, the middle one failing. -/
def tasks3 : List (Except String Nat) := [Except.ok 1, Except.error "boom", Except.ok 2]

/-! ## Theorems -/

/-- A positive clip width forces a non-negative trimmed width, and a
successful trim excludes zero, so the trimmed width is positive. -/
theorem trimClipToSize_pos (clip : Rect) (size : Size) (r : Rect)
    (hw : 0 < clip.width) (hh : 0 < clip.height)
    (hok : trimClipToSize clip size = Except.ok r) :
    0 < r.width ∧ 0 < r.height := by
  unfold trimClipToSize at hok
  by_cases hz :
      max 0 (min (clip.x + clip.width) size.width) - max 0 (min clip.x size.width) = 0 ∨
      max 0 (min (clip.y + clip.height) size.height) - max 0 (min clip.y size.height) = 0
  · simp only [hz, if_true] at hok
    exact absurd hok (by simp)
  · simp only [hz, if_false] at hok
    push_neg at hz
    obtain ⟨hzx, hzy⟩ := hz
    have hx1 : clip.x ≤ clip.x + clip.width := by linarith
    have hy1 : clip.y ≤ clip.y + clip.height := by linarith
    have hmx : max 0 (min clip.x size.width) ≤ max 0 (min (clip.x + clip.width) size.width) :=
      max_le_max (le_refl 0) (min_le_min hx1 (le_refl _))
    have hmy : max 0 (min clip.y size.height) ≤ max 0 (min (clip.y + clip.height) size.height) :=
      max_le_max (le_refl 0) (min_le_min hy1 (le_refl _))
    injection hok with hr
    subst hr
    exact ⟨lt_of_le_of_ne (sub_nonneg.mpr hmx) (Ne.symm hzx),
      lt_of_le_of_ne (sub_nonneg.mpr hmy) (Ne.symm hzy)⟩

/-- C2 counterexample: a clip with negative width and height passes the
truthiness assert unchanged, so trimClipToSize succeeds and returns a rect
with negative width, contradicting the claim that it fails whenever the
resulting width or height is zero or negative. -/
theorem trimClipToSize_negative_not_rejected :
    trimClipToSize ⟨10, 10, -5, -5⟩ ⟨100, 100⟩ = Except.ok ⟨10, 10, -5, -5⟩ ∧
    ((⟨10, 10, -5, -5⟩ : Rect).width < 0 ∧ (⟨10, 10, -5, -5⟩ : Rect).height < 0) := by
  constructor
  · unfold trimClipToSize
    norm_num [min_def, max_def]
  · norm_num

/-- C2 (amended): trimClipToSize clamps each corner independently into
the bounds rectangle, recomputes width and height from the clamped
corners, and fails exactly when the resulting width or height is zero;
a negative resulting width or height is returned without failure. -/
theorem trimClipToSize_characterization (clip : Rect) (size : Size) :
    (∀ r, trimClipToSize clip size = Except.ok r →
      r.x = max 0 (min clip.x size.width) ∧
      r.y = max 0 (min clip.y size.height) ∧
      r.x + r.width = max 0 (min (clip.x + clip.width) size.width) ∧
      r.y + r.height = max 0 (min (clip.y + clip.height) size.height)) ∧
    ((∃ e, trimClipToSize clip size = Except.error e) ↔
      max 0 (min (clip.x + clip.width) size.width) - max 0 (min clip.x size.width) = 0 ∨
      max 0 (min (clip.y + clip.height) size.height) - max 0 (min clip.y size.height) = 0) := by
  unfold trimClipToSize
  by_cases hz :
      max 0 (min (clip.x + clip.width) size.width) - max 0 (min clip.x size.width) = 0 ∨
      max 0 (min (clip.y + clip.height) size.height) - max 0 (min clip.y size.height) = 0
  · simp only [hz, if_true]
    refine ⟨fun r hr => absurd hr (by simp), ?_⟩
    simp [hz]
  · simp only [hz, if_false]
    refine ⟨fun r hr => ?_, by simp [hz]⟩
    injection hr with hr
    subst hr
    refine ⟨rfl, rfl, by dsimp only; ring, by dsimp only; ring⟩

/-- Witness for the C2 theorem at a concrete partially-out-of-bounds clip. -/
theorem trimClipToSize_characterization_witness :
    (⟨0, 2, 7, 8⟩ : Rect).x = max 0 (min (⟨-3, 2, 10, 20⟩ : Rect).x (⟨10, 10⟩ : Size).width) ∧
    (⟨0, 2, 7, 8⟩ : Rect).y = max 0 (min (⟨-3, 2, 10, 20⟩ : Rect).y (⟨10, 10⟩ : Size).height) ∧
    (⟨0, 2, 7, 8⟩ : Rect).x + (⟨0, 2, 7, 8⟩ : Rect).width =
      max 0 (min ((⟨-3, 2, 10, 20⟩ : Rect).x + (⟨-3, 2, 10, 20⟩ : Rect).width)
        (⟨10, 10⟩ : Size).width) ∧
    (⟨0, 2, 7, 8⟩ : Rect).y + (⟨0, 2, 7, 8⟩ : Rect).height =
      max 0 (min ((⟨-3, 2, 10, 20⟩ : Rect).y + (⟨-3, 2, 10, 20⟩ : Rect).height)
        (⟨10, 10⟩ : Size).height) :=
  (trimClipToSize_characterization ⟨-3, 2, 10, 20⟩ ⟨10, 10⟩).1 ⟨0, 2, 7, 8⟩
    (by unfold trimClipToSize; norm_num [min_def, max_def])

/-- C8: a clip fully inside the bounds, with positive width and height,
is returned unchanged by trimClipToSize. -/
theorem trimClipToSize_inside_id (clip : Rect) (size : Size)
    (hx : 0 ≤ clip.x) (hy : 0 ≤ clip.y)
    (hw : 0 < clip.width) (hh : 0 < clip.height)
    (hxw : clip.x + clip.width ≤ size.width)
    (hyh : clip.y + clip.height ≤ size.height) :
    trimClipToSize clip size = Except.ok clip := by
  have h1x : max 0 (min clip.x size.width) = clip.x := by
    rw [min_eq_left (by linarith), max_eq_right hx]
  have h1y : max 0 (min clip.y size.height) = clip.y := by
    rw [min_eq_left (by linarith), max_eq_right hy]
  have h2x : max 0 (min (clip.x + clip.width) size.width) = clip.x + clip.width := by
    rw [min_eq_left hxw, max_eq_right (by linarith)]
  have h2y : max 0 (min (clip.y + clip.height) size.height) = clip.y + clip.height := by
    rw [min_eq_left hyh, max_eq_right (by linarith)]
  unfold trimClipToSize
  simp only [h1x, h1y, h2x, h2y, add_sub_cancel_left]
  have : ¬ (clip.width = 0 ∨ clip.height = 0) := by
    push_neg
    exact ⟨ne_of_gt hw, ne_of_gt hh⟩
  simp only [this, if_false]

/-- Witness for the C8 theorem at a concrete inside clip. -/
theorem trimClipToSize_inside_id_witness :
    trimClipToSize ⟨1, 2, 3, 4⟩ ⟨10, 10⟩ = Except.ok ⟨1, 2, 3, 4⟩ :=
  trimClipToSize_inside_id ⟨1, 2, 3, 4⟩ ⟨10, 10⟩
    (by norm_num) (by norm_num) (by norm_num) (by norm_num) (by norm_num) (by norm_num)

/-- The clip checks fail exactly on a present clip with a non-numeric field
or a zero width or height, and succeed with the given format. -/
theorem validateClip_spec (o : ScreenshotOptions) (format : String) :
    ((∃ e, validateClip o format = Except.error e) ↔
      ∃ c, o.clip = some c ∧
        (c.x.isNum = false ∨ c.y.isNum = false ∨ c.width.isNum = false ∨
         c.height.isNum = false ∨ c.width = JSVal.num 0 ∨ c.height = JSVal.num 0)) ∧
    (∀ f, validateClip o format = Except.ok f → f = format) := by
  cases hc : o.clip with
  | none => simp [validateClip, hc]
  | some c =>
    simp only [validateClip, hc]
    by_cases h1 : c.x.isNum <;> by_cases h2 : c.y.isNum <;>
      by_cases h3 : c.width.isNum <;> by_cases h4 : c.height.isNum <;>
      by_cases h5 : c.width = JSVal.num 0 <;> by_cases h6 : c.height = JSVal.num 0 <;>
      simp_all

/-- The quality checks fail exactly on a present quality with a non-jpeg
format, a non-number value, a non-integer value or a value outside the
range, or on failing clip checks; success yields the given format. -/
theorem validateQuality_spec (o : ScreenshotOptions) (format : String) :
    ((∃ e, validateQuality o format = Except.error e) ↔
      (∃ v, o.quality = some v ∧
        (format ≠ "jpeg" ∨ v.isNum = false ∨
         ∃ q, v = JSVal.num q ∧ (q.den ≠ 1 ∨ q < 0 ∨ 100 < q))) ∨
      ∃ c, o.clip = some c ∧
        (c.x.isNum = false ∨ c.y.isNum = false ∨ c.width.isNum = false ∨
         c.height.isNum = false ∨ c.width = JSVal.num 0 ∨ c.height = JSVal.num 0)) ∧
    (∀ f, validateQuality o format = Except.ok f → f = format) := by
  cases hq : o.quality with
  | none =>
    have h := validateClip_spec o format
    simp only [validateQuality, hq]
    constructor
    · rw [h.1]
      simp
    · exact h.2
  | some v =>
    simp only [validateQuality, hq]
    by_cases hf : format = "jpeg"
    · subst hf
      rw [if_pos rfl]
      cases v with
      | num q =>
        dsimp only
        by_cases hd : q.den = 1
        · rw [if_pos hd]
          by_cases hr : 0 ≤ q ∧ q ≤ 100
          · rw [if_pos hr]
            have h := validateClip_spec o "jpeg"
            constructor
            · rw [h.1]
              constructor
              · intro hcl
                exact Or.inr hcl
              · rintro (⟨v2, hv2, hbad⟩ | hcl)
                · exfalso
                  injection hv2 with hv2
                  subst hv2
                  rcases hbad with hbad | hbad | ⟨q2, hq2, hbad⟩
                  · exact hbad rfl
                  · simp [JSVal.isNum] at hbad
                  · injection hq2 with hq2
                    subst hq2
                    rcases hbad with hbad | hbad | hbad
                    · exact hbad hd
                    · linarith [hr.1]
                    · linarith [hr.2]
                · exact hcl
            · exact h.2
          · rw [if_neg hr]
            refine ⟨⟨fun _ => ?_, fun _ => ⟨_, rfl⟩⟩, fun f hfk => absurd hfk (by simp)⟩
            refine Or.inl ⟨JSVal.num q, rfl, Or.inr (Or.inr ⟨q, rfl, Or.inr ?_⟩)⟩
            rcases not_and_or.mp hr with hlt | hgt
            · exact Or.inl (lt_of_not_le hlt)
            · exact Or.inr (lt_of_not_le hgt)
        · rw [if_neg hd]
          exact ⟨⟨fun _ => Or.inl ⟨JSVal.num q, rfl, Or.inr (Or.inr ⟨q, rfl, Or.inl hd⟩)⟩,
            fun _ => ⟨_, rfl⟩⟩, fun f hfk => absurd hfk (by simp)⟩
      | other tag =>
        exact ⟨⟨fun _ => Or.inl ⟨JSVal.other tag, rfl, Or.inr (Or.inl rfl)⟩,
          fun _ => ⟨_, rfl⟩⟩, fun f hfk => absurd hfk (by simp)⟩
    · rw [if_neg hf]
      exact ⟨⟨fun _ => Or.inl ⟨v, rfl, Or.inl hf⟩, fun _ => ⟨_, rfl⟩⟩,
        fun f hfk => absurd hfk (by simp)⟩

/-- C6 counterexample: a present but falsy (empty-string) type skips the
truthiness-guarded type assert, so validation succeeds with format png even
though the type is present and is neither png nor jpeg — the claimed
failure condition does not hold of the program. -/
theorem validate_empty_type_accepted :
    validateScreenshotOptions oEmptyType = Except.ok "png" ∧
    oEmptyType.type = some "" ∧ ("" : String) ≠ "png" ∧ ("" : String) ≠ "jpeg" := by
  refine ⟨rfl, rfl, ?_, ?_⟩ <;> decide

/-- C6 (amended): option validation fails exactly when the type is present,
truthy (non-empty) and neither png nor jpeg, or the quality is present
while the resolved format is not jpeg or is not an integer number within
0..100, or the clip is present with a non-numeric field or a zero width or
height; a present but empty type is ignored by the truthiness guard and the
format defaults to png; validation is synchronous, so an invalid call
enqueues no task in either public operation; on success it returns the
resolved format: the type when present and non-empty, else png. -/
theorem validateScreenshotOptions_spec (o : ScreenshotOptions)
    (resolve : MaskPair → Option ResolvedPair) (env : Env) :
    ((∃ e, validateScreenshotOptions o = Except.error e) ↔
      (∃ t, o.type = some t ∧ t ≠ "" ∧ t ≠ "png" ∧ t ≠ "jpeg") ∨
      (∃ v, o.quality = some v ∧
        (resolvedFormat o ≠ "jpeg" ∨ v.isNum = false ∨
         ∃ q, v = JSVal.num q ∧ (q.den ≠ 1 ∨ q < 0 ∨ 100 < q))) ∨
      (∃ c, o.clip = some c ∧
        (c.x.isNum = false ∨ c.y.isNum = false ∨ c.width.isNum = false ∨
         c.height.isNum = false ∨ c.width = JSVal.num 0 ∨ c.height = JSVal.num 0))) ∧
    (∀ f, validateScreenshotOptions o = Except.ok f → f = resolvedFormat o) ∧
    (∀ e, validateScreenshotOptions o = Except.error e →
      (screenshotPage resolve env o).1 = false ∧
      (screenshotElement resolve env o).1 = false) := by
  refine ⟨?_, ?_, ?_⟩
  · cases ht : o.type with
    | none =>
      have hrf : resolvedFormat o = "png" := by simp [resolvedFormat, ht]
      have h := (validateQuality_spec o "png").1
      simp only [validateScreenshotOptions, ht]
      rw [h, hrf]
      simp
    | some t =>
      by_cases ht0 : t = ""
      · have hrf : resolvedFormat o = "png" := by simp [resolvedFormat, ht, ht0]
        have h := (validateQuality_spec o "png").1
        simp only [validateScreenshotOptions, ht]
        rw [if_pos ht0, h, hrf]
        constructor
        · rintro (hq | hc)
          · exact Or.inr (Or.inl hq)
          · exact Or.inr (Or.inr hc)
        · rintro (⟨t2, ht2, hne, _, _⟩ | hq | hc)
          · injection ht2 with ht2
            exact absurd (ht2.symm.trans ht0) hne
          · exact Or.inl hq
          · exact Or.inr hc
      · by_cases hv : t = "png" ∨ t = "jpeg"
        · have hrf : resolvedFormat o = t := by simp [resolvedFormat, ht, ht0]
          have h := (validateQuality_spec o t).1
          simp only [validateScreenshotOptions, ht]
          rw [if_neg ht0, if_pos hv, h, hrf]
          constructor
          · rintro (hq | hc)
            · exact Or.inr (Or.inl hq)
            · exact Or.inr (Or.inr hc)
          · rintro (⟨t2, ht2, _, hnp, hnj⟩ | hq | hc)
            · injection ht2 with ht2
              subst ht2
              rcases hv with hv | hv
              · exact absurd hv hnp
              · exact absurd hv hnj
            · exact Or.inl hq
            · exact Or.inr hc
        · push_neg at hv
          simp only [validateScreenshotOptions, ht]
          rw [if_neg ht0, if_neg (not_or.mpr hv)]
          constructor
          · intro _
            exact Or.inl ⟨t, rfl, ht0, hv.1, hv.2⟩
          · intro _
            exact ⟨_, rfl⟩
  · intro f hf
    cases ht : o.type with
    | none =>
      have hrf : resolvedFormat o = "png" := by simp [resolvedFormat, ht]
      simp only [validateScreenshotOptions, ht] at hf
      rw [hrf]
      exact (validateQuality_spec o "png").2 f hf
    | some t =>
      simp only [validateScreenshotOptions, ht] at hf
      by_cases ht0 : t = ""
      · have hrf : resolvedFormat o = "png" := by simp [resolvedFormat, ht, ht0]
        rw [if_pos ht0] at hf
        rw [hrf]
        exact (validateQuality_spec o "png").2 f hf
      · rw [if_neg ht0] at hf
        by_cases hv : t = "png" ∨ t = "jpeg"
        · rw [if_pos hv] at hf
          have hrf : resolvedFormat o = t := by simp [resolvedFormat, ht, ht0]
          rw [hrf]
          exact (validateQuality_spec o t).2 f hf
        · rw [if_neg hv] at hf
          exact absurd hf (by simp)
  · intro e he
    constructor
    · simp [screenshotPage, he]
    · simp [screenshotElement, he]

/-- Witness for the C6 theorem: an unknown non-empty type value yields a
validation error and enqueues no task in either operation. -/
theorem validateScreenshotOptions_spec_witness :
    (∃ e, validateScreenshotOptions oBadType = Except.error e) ∧
    (screenshotPage rnone env0 oBadType).1 = false ∧
    (screenshotElement rnone env0 oBadType).1 = false :=
  ⟨(validateScreenshotOptions_spec oBadType rnone env0).1.mpr
      (Or.inl ⟨"gif", rfl, by decide, by decide, by decide⟩),
    (validateScreenshotOptions_spec oBadType rnone env0).2.2
      "Unknown options.type value: gif" rfl⟩

/-- Rounding outward keeps positive width and height positive. -/
theorem enclosingIntRect_pos (r : Rect) (hw : 0 < r.width) (hh : 0 < r.height) :
    0 < (enclosingIntRect r).width ∧ 0 < (enclosingIntRect r).height := by
  unfold enclosingIntRect
  constructor
  · dsimp only
    have h1 : r.x + r.width ≤ ((⌈r.x + r.width⌉ : Int) : Rat) := Int.le_ceil _
    have h2 : ((⌊r.x⌋ : Int) : Rat) ≤ r.x := Int.floor_le r.x
    linarith
  · dsimp only
    have h1 : r.y + r.height ≤ ((⌈r.y + r.height⌉ : Int) : Rat) := Int.le_ceil _
    have h2 : ((⌊r.y⌋ : Int) : Rat) ≤ r.y := Int.floor_le r.y
    linarith

/-- Every successful page capture target has positive dimensions, given a
positive viewport, a positive full-page size and a positive clip. -/
theorem pageTask_rect_pos (resolve : MaskPair → Option ResolvedPair) (env : Env)
    (o : ScreenshotOptions) (format : String) (t : Target) (fits : Bool)
    (hvw : 0 < env.viewportSize.width) (hvh : 0 < env.viewportSize.height)
    (hfw : 0 < env.fullPageSize.width) (hfh : 0 < env.fullPageSize.height)
    (hclip : ∀ c r, o.clip = some c → c.toRect = some r → 0 < r.width ∧ 0 < r.height)
    (hok : (pageTask resolve env o format).2 = Except.ok (t, fits)) :
    0 < t.rect.width ∧ 0 < t.rect.height := by
  unfold pageTask at hok
  cases hfp : o.fullPage with
  | true =>
    rw [hfp] at hok
    simp only [if_true] at hok
    cases hclipo : o.clip with
    | none =>
      rw [hclipo] at hok
      simp only [Prod.mk.injEq, Except.ok.injEq] at hok
      obtain ⟨h1, _⟩ := hok
      subst h1
      exact ⟨hfw, hfh⟩
    | some c =>
      rw [hclipo] at hok
      dsimp only at hok
      cases htr : c.toRect with
      | none => rw [htr] at hok; simp at hok
      | some cr =>
        rw [htr] at hok
        dsimp only at hok
        cases htrim : trimClipToSize cr ⟨env.fullPageSize.width, env.fullPageSize.height⟩ with
        | error e => rw [htrim] at hok; simp at hok
        | ok r =>
          rw [htrim] at hok
          simp only [Prod.mk.injEq, Except.ok.injEq] at hok
          obtain ⟨h1, _⟩ := hok
          subst h1
          obtain ⟨hcw, hch⟩ := hclip c cr hclipo htr
          exact trimClipToSize_pos cr _ r hcw hch htrim
  | false =>
    rw [hfp] at hok
    simp only [Bool.false_eq_true, if_false] at hok
    cases hclipo : o.clip with
    | none =>
      rw [hclipo] at hok
      simp only [Prod.mk.injEq, Except.ok.injEq] at hok
      obtain ⟨h1, _⟩ := hok
      subst h1
      exact ⟨hvw, hvh⟩
    | some c =>
      rw [hclipo] at hok
      dsimp only at hok
      cases htr : c.toRect with
      | none => rw [htr] at hok; simp at hok
      | some cr =>
        rw [htr] at hok
        dsimp only at hok
        cases htrim : trimClipToSize cr env.viewportSize with
        | error e => rw [htrim] at hok; simp at hok
        | ok r =>
          rw [htrim] at hok
          simp only [Prod.mk.injEq, Except.ok.injEq] at hok
          obtain ⟨h1, _⟩ := hok
          subst h1
          obtain ⟨hcw, hch⟩ := hclip c cr hclipo htr
          exact trimClipToSize_pos cr _ r hcw hch htrim

/-- Every successful element capture rect has positive dimensions, given a
non-negative bounding box (the code rejects only exact zero). -/
theorem elementTask_rect_pos (resolve : MaskPair → Option ResolvedPair) (env : Env)
    (o : ScreenshotOptions) (format : String) (r : Rect) (fits : Bool)
    (hbb : ∀ b, env.boundingBox = some b → 0 ≤ b.width ∧ 0 ≤ b.height)
    (hok : (elementTask resolve env o format).2 = Except.ok (r, fits)) :
    0 < r.width ∧ 0 < r.height := by
  unfold elementTask at hok
  cases hb : env.boundingBox with
  | none => rw [hb] at hok; simp at hok
  | some bb =>
    rw [hb] at hok
    dsimp only at hok
    by_cases hw0 : bb.width = 0
    · rw [if_pos hw0] at hok
      simp at hok
    · rw [if_neg hw0] at hok
      by_cases hh0 : bb.height = 0
      · rw [if_pos hh0] at hok
        simp at hok
      · rw [if_neg hh0] at hok
        simp only [Prod.mk.injEq, Except.ok.injEq] at hok
        obtain ⟨h1, _⟩ := hok
        subst h1
        obtain ⟨hwge, hhge⟩ := hbb bb hb
        exact enclosingIntRect_pos _
          (lt_of_le_of_ne hwge (Ne.symm hw0)) (lt_of_le_of_ne hhge (Ne.symm hh0))

/-- C1 counterexample: the validated options oNegClip (clip with negative
width and height, accepted by validation) make capture-page pass a
negative-width viewportRect to the capture primitive. -/
theorem screenshot_rect_pos_cex :
    (screenshotPage rnone env0 oNegClip).1 = true ∧
    (screenshotPage rnone env0 oNegClip).2.2 =
      Except.ok (Target.viewport ⟨10, 10, -5, -5⟩, true) ∧
    (Target.viewport ⟨10, 10, -5, -5⟩).rect.width < 0 := by
  have hval : validateScreenshotOptions oNegClip = Except.ok "png" := rfl
  have htrim : trimClipToSize ⟨10, 10, -5, -5⟩ env0.viewportSize =
      Except.ok ⟨10, 10, -5, -5⟩ := by
    unfold trimClipToSize env0
    norm_num [min_def, max_def]
  refine ⟨?_, ?_, ?_⟩
  · simp [screenshotPage, hval]
  · unfold screenshotPage
    rw [hval]
    unfold pageTask
    simp [oNegClip, JSClip.toRect, htrim]
  · norm_num [Target.rect]

/-- C1 (amended): whenever validation accepts the options, the clip (when
present) has positive width and height, and the live page reports positive
viewport and full-page sizes and a non-negative bounding box, the rect
ultimately passed to the capture primitive (documentRect or viewportRect,
in capture-page, capture-page fullPage and capture-element) has strictly
positive width and height. -/
theorem screenshot_rect_pos (resolve : MaskPair → Option ResolvedPair) (env : Env)
    (o : ScreenshotOptions)
    (hvw : 0 < env.viewportSize.width) (hvh : 0 < env.viewportSize.height)
    (hfw : 0 < env.fullPageSize.width) (hfh : 0 < env.fullPageSize.height)
    (hbb : ∀ b, env.boundingBox = some b → 0 ≤ b.width ∧ 0 ≤ b.height)
    (hclip : ∀ c r, o.clip = some c → c.toRect = some r → 0 < r.width ∧ 0 < r.height) :
    (∀ t fits, (screenshotPage resolve env o).2.2 = Except.ok (t, fits) →
      0 < t.rect.width ∧ 0 < t.rect.height) ∧
    (∀ r fits, (screenshotElement resolve env o).2.2 = Except.ok (r, fits) →
      0 < r.width ∧ 0 < r.height) := by
  constructor
  · intro t fits hok
    unfold screenshotPage at hok
    cases hval : validateScreenshotOptions o with
    | error e => rw [hval] at hok; simp at hok
    | ok format =>
      rw [hval] at hok
      exact pageTask_rect_pos resolve env o format t fits hvw hvh hfw hfh hclip hok
  · intro r fits hok
    unfold screenshotElement at hok
    cases hval : validateScreenshotOptions o with
    | error e => rw [hval] at hok; simp at hok
    | ok format =>
      rw [hval] at hok
      exact elementTask_rect_pos resolve env o format r fits hbb hok

/-- Witness for the C1 theorem: the default options on a 100x100 viewport
yield the full positive viewport rect. -/
theorem screenshot_rect_pos_witness :
    0 < (Target.viewport ⟨0, 0, 100, 100⟩).rect.width ∧
    0 < (Target.viewport ⟨0, 0, 100, 100⟩).rect.height :=
  (screenshot_rect_pos rnone env0 o0
    (by norm_num [env0]) (by norm_num [env0]) (by norm_num [env0]) (by norm_num [env0])
    (by
      intro b hb
      have hb2 : some (⟨5, 5, 20, 20⟩ : Rect) = some b := hb
      injection hb2 with hb2
      subst hb2
      norm_num)
    (by
      intro c r hc
      exact absurd (show (none : Option JSClip) = some c from hc) (by simp))).1
    (Target.viewport ⟨0, 0, 100, 100⟩) true rfl

/-- C3 counterexample: on a zero-width element the failure trace already
contains the freeze injection and the scroll-into-view, so the zero-width
failure is not raised before page mutation. -/
theorem element_zero_width_cex :
    (screenshotElement rnone envZeroW o0).2 =
      ([Ev.freeze, Ev.scrollIntoView], Except.error "Node has 0 width.") ∧
    Ev.freeze ∈ [Ev.freeze, Ev.scrollIntoView] := by
  constructor
  · rfl
  · simp

/-- C3 (amended): on a zero-width element, capture-element fails after the
freeze injection and the scroll-into-view, and before any mask
application, background override or capture: the mutation trace at the
failure is exactly freeze followed by scroll-into-view. -/
theorem element_zero_width_after_freeze (resolve : MaskPair → Option ResolvedPair)
    (env : Env) (o : ScreenshotOptions) (format : String) (bb : Rect)
    (hval : validateScreenshotOptions o = Except.ok format)
    (hbb : env.boundingBox = some bb) (hw : bb.width = 0) :
    screenshotElement resolve env o =
      (true, ([Ev.freeze, Ev.scrollIntoView], Except.error "Node has 0 width.")) := by
  unfold screenshotElement
  rw [hval]
  unfold elementTask
  rw [hbb]
  dsimp only
  rw [if_pos hw]

/-- Witness for the C3 theorem at a concrete zero-width bounding box. -/
theorem element_zero_width_after_freeze_witness :
    screenshotElement rnone envZeroW o0 =
      (true, ([Ev.freeze, Ev.scrollIntoView], Except.error "Node has 0 width.")) :=
  element_zero_width_after_freeze rnone envZeroW o0 "png" ⟨5, 5, 0, 20⟩ rfl rfl rfl

/-- A fold over pairs none of which resolves leaves the accumulator
unchanged. -/
theorem maskFold_none (resolve : MaskPair → Option ResolvedPair) :
    ∀ (l : List MaskPair) (acc : List (Nat × List String)),
      (∀ p ∈ l, resolve p = none) → l.foldl (maskFold resolve) acc = acc
  | [], _, _ => rfl
  | p :: rest, acc, h => by
    have hp : resolve p = none := h p (List.mem_cons_self p rest)
    have hstep : maskFold resolve acc p = acc := by
      unfold maskFold
      rw [hp]
    rw [List.foldl_cons, hstep]
    exact maskFold_none resolve rest acc (fun q hq => h q (List.mem_cons_of_mem p hq))

/-- C4 counterexample: a non-empty mask list in which no pair resolves
applies no mask (no maskSelectors call is issued) yet maskElements still
returns true, so the returned flag is not equivalent to a mask having been
applied. -/
theorem maskElements_unresolved_reports_true :
    maskElements rnone [p0] = (true, []) ∧
    ¬ ((maskElements rnone [p0]).1 = true ↔ (maskElements rnone [p0]).2 ≠ []) := by
  have h : maskElements rnone [p0] = (true, []) := rfl
  refine ⟨h, ?_⟩
  rw [h]
  simp

/-- C4 (amended): maskElements returns true exactly when the mask list is
non-empty, regardless of resolution; pairs that do not resolve are dropped,
so when no pair resolves no maskSelectors call is issued even though true
is returned. -/
theorem maskElements_spec (resolve : MaskPair → Option ResolvedPair)
    (mask : List MaskPair) :
    ((maskElements resolve mask).1 = true ↔ mask ≠ []) ∧
    ((∀ p ∈ mask, resolve p = none) → (maskElements resolve mask).2 = []) := by
  constructor
  · cases mask with
    | nil => simp [maskElements]
    | cons p rest => simp [maskElements]
  · intro h
    cases mask with
    | nil => simp [maskElements]
    | cons p rest =>
      simp only [maskElements, List.isEmpty_cons, Bool.false_eq_true, if_false]
      exact maskFold_none resolve (p :: rest) [] h

/-- Witness for the C4 theorem: one unresolvable pair yields true and no
applied mask. -/
theorem maskElements_spec_witness :
    (maskElements rnone [p0]).1 = true ∧ (maskElements rnone [p0]).2 = [] :=
  ⟨(maskElements_spec rnone [p0]).1.mpr (by simp),
   (maskElements_spec rnone [p0]).2 (fun p _ => rfl)⟩

/-- C5 counterexample: with omitBackground, png format and a resolving
mask, the mutation sequence of the queued capture is background override
first, then masking, so mask application does not precede the background
override. -/
theorem background_set_before_mask_cex :
    screenshotInner rsame oMaskBg "png" =
      [Ev.setBackground, Ev.mask, Ev.capture, Ev.unmask, Ev.restoreBackground] ∧
    (screenshotInner rsame oMaskBg "png").head? = some Ev.setBackground ∧
    Ev.mask ∈ (screenshotInner rsame oMaskBg "png").tail := by
  refine ⟨rfl, rfl, ?_⟩
  rw [show (screenshotInner rsame oMaskBg "png").tail =
    [Ev.mask, Ev.capture, Ev.unmask, Ev.restoreBackground] from rfl]
  simp

/-- C5 (amended): whenever a single capture both sets the transparent
background and applies a mask, the background override is the first
mutation of the inner sequence and the mask application strictly follows
it; the override is never re-issued later. -/
theorem background_set_before_mask (resolve : MaskPair → Option ResolvedPair)
    (o : ScreenshotOptions) (format : String)
    (hm : Ev.mask ∈ screenshotInner resolve o format)
    (hb : Ev.setBackground ∈ screenshotInner resolve o format) :
    (screenshotInner resolve o format).head? = some Ev.setBackground ∧
    Ev.mask ∈ (screenshotInner resolve o format).tail ∧
    Ev.setBackground ∉ (screenshotInner resolve o format).tail := by
  unfold screenshotInner at *
  by_cases h1 : o.omitBackground ∧ format = "png"
  · by_cases h2 : (maskElements resolve o.mask).2.isEmpty
    · simp [h1, h2] at hm
    · cases h3 : (maskElements resolve o.mask).1 <;> simp [h1, h2, h3]
  · simp [h1] at hb

/-- Witness for the C5 theorem at a capture with background override and a
resolving mask. -/
theorem background_set_before_mask_witness :
    (screenshotInner rsame oMaskBg "png").head? = some Ev.setBackground ∧
    Ev.mask ∈ (screenshotInner rsame oMaskBg "png").tail ∧
    Ev.setBackground ∉ (screenshotInner rsame oMaskBg "png").tail :=
  background_set_before_mask rsame oMaskBg "png"
    (by rw [show screenshotInner rsame oMaskBg "png" =
      [Ev.setBackground, Ev.mask, Ev.capture, Ev.unmask, Ev.restoreBackground] from rfl]; simp)
    (by rw [show screenshotInner rsame oMaskBg "png" =
      [Ev.setBackground, Ev.mask, Ev.capture, Ev.unmask, Ev.restoreBackground] from rfl]; simp)

/-- Posting operations on a fulfilled chain returns each operation its own
outcome, keeps the chain fulfilled, and appends the fully serialized
start/settle events of the operations to the chain trace. -/
theorem postAllFrom_spec :
    ∀ (tasks : List (Except String Nat)) (q : TaskQueue) (i : Nat),
      q.chain.result = Except.ok () →
      (postAllFrom q i tasks).1 = tasks ∧
      (postAllFrom q i tasks).2.chain.result = Except.ok () ∧
      (postAllFrom q i tasks).2.chain.trace = q.chain.trace ++ qTrace i tasks.length
  | [], q, i, h => by
    refine ⟨rfl, h, ?_⟩
    show q.chain.trace = q.chain.trace ++ qTrace i 0
    simp [qTrace]
  | o :: rest, q, i, h => by
    have hthen : pThen q.chain i o = (q.chain.trace ++ [QEv.started i, QEv.settled i], o) := by
      unfold pThen
      rw [h]
    have hcatch : pCatch (q.chain.trace ++ [QEv.started i, QEv.settled i]) o =
        ⟨q.chain.trace ++ [QEv.started i, QEv.settled i], Except.ok ()⟩ := by
      cases o <;> rfl
    have hpost : q.postTask i o =
        (o, ⟨⟨q.chain.trace ++ [QEv.started i, QEv.settled i], Except.ok ()⟩⟩) := by
      unfold TaskQueue.postTask
      rw [hthen]
      dsimp only
      rw [hcatch]
    have hq1 : (q.postTask i o).1 = o := by rw [hpost]
    have hq2 : (q.postTask i o).2 =
        ⟨⟨q.chain.trace ++ [QEv.started i, QEv.settled i], Except.ok ()⟩⟩ := by rw [hpost]
    have ih := postAllFrom_spec rest (q.postTask i o).2 (i + 1) (by rw [hq2])
    refine ⟨?_, ?_, ?_⟩
    · show (q.postTask i o).1 :: (postAllFrom (q.postTask i o).2 (i + 1) rest).1 = o :: rest
      rw [hq1, ih.1]
    · exact ih.2.1
    · show (postAllFrom (q.postTask i o).2 (i + 1) rest).2.chain.trace =
        q.chain.trace ++ qTrace i (o :: rest).length
      rw [ih.2.2, hq2]
      show (q.chain.trace ++ [QEv.started i, QEv.settled i]) ++ qTrace (i + 1) rest.length =
        q.chain.trace ++ qTrace i (rest.length + 1)
      rw [List.append_assoc]
      rfl

/-- The elements of the serialized trace, by position: even positions hold
starts, odd positions hold settlements, in operation order. -/
theorem qTrace_get :
    ∀ (n s d : Nat), d < 2 * n →
      (qTrace s n).get? d =
        some (if d % 2 = 0 then QEv.started (s + d / 2) else QEv.settled (s + d / 2))
  | 0, _, _, h => absurd h (by omega)
  | Nat.succ _, s, 0, _ => by simp [qTrace]
  | Nat.succ _, s, 1, _ => by simp [qTrace]
  | Nat.succ m, s, Nat.succ (Nat.succ d), h => by
    have ih := qTrace_get m (s + 1) d (by omega)
    show (qTrace (s + 1) m).get? d =
      some (if (d + 2) % 2 = 0 then QEv.started (s + (d + 2) / 2)
        else QEv.settled (s + (d + 2) / 2))
    rw [ih]
    have h2 : (d + 2) % 2 = d % 2 := by omega
    have h3 : (d + 2) / 2 = d / 2 + 1 := by omega
    have h4 : s + (d / 2 + 1) = s + 1 + d / 2 := by omega
    rw [h2, h3, h4]

/-- C7: every operation posted to the task queue receives its own outcome
(a prior failure never propagates), the chain stays fulfilled so it always
keeps advancing, and the trace is fully serialized: operation i starts at
position 2i and settles at position 2i+1, so operation i+1 starts only
after operation i has settled. -/
theorem postTask_fifo (tasks : List (Except String Nat)) :
    (postAll tasks).1 = tasks ∧
    (postAll tasks).2.chain.result = Except.ok () ∧
    (∀ i, i < tasks.length →
      (postAll tasks).2.chain.trace.get? (2 * i) = some (QEv.started i) ∧
      (postAll tasks).2.chain.trace.get? (2 * i + 1) = some (QEv.settled i)) := by
  have h := postAllFrom_spec tasks TaskQueue.new 0 rfl
  refine ⟨h.1, h.2.1, ?_⟩
  intro i hi
  have htr : (postAll tasks).2.chain.trace = qTrace 0 tasks.length := by
    have h2 := h.2.2
    simpa [TaskQueue.new] using h2
  rw [htr]
  constructor
  · rw [qTrace_get tasks.length 0 (2 * i) (by omega)]
    have h2 : (2 * i) % 2 = 0 := by omega
    have h3 : (2 * i) / 2 = i := by omega
    rw [if_pos h2, h3]
    simp
  · rw [qTrace_get tasks.length 0 (2 * i + 1) (by omega)]
    have h2 : ¬ ((2 * i + 1) % 2 = 0) := by omega
    have h3 : (2 * i + 1) / 2 = i := by omega
    rw [if_neg h2, h3]
    simp

/-- Witness for the C7 theorem: three operations with a failing middle one
all receive their own outcomes, and operation 1 starts only after
operation 0 settles. -/
theorem postTask_fifo_witness :
    (postAll tasks3).1 = tasks3 ∧
    (postAll tasks3).2.chain.trace.get? 2 = some (QEv.started 1) ∧
    (postAll tasks3).2.chain.trace.get? 3 = some (QEv.settled 1) :=
  ⟨(postTask_fifo tasks3).1,
   ((postTask_fifo tasks3).2.2 1 (by decide)).1,
   ((postTask_fifo tasks3).2.2 1 (by decide)).2⟩

/-- Invoking the guarded cleanup twice equals invoking it once. -/
theorem cleanup_cleanup (s : FrameState) :
    cleanupScreenshot (cleanupScreenshot s) = cleanupScreenshot s := by
  by_cases h : s.handleInstalled = true
  · simp [cleanupScreenshot, h]
  · simp [cleanupScreenshot, h]

/-- C9: the per-frame cleanup handle is idempotent: invoking the guarded
cleanup twice gives the state of a single invocation, invoking it in a
frame with no handle installed is a no-op, and the page-wide restore is
idempotent across all frames. -/
theorem cleanupScreenshot_idempotent (s : FrameState) (frames : List FrameState) :
    cleanupScreenshot (cleanupScreenshot s) = cleanupScreenshot s ∧
    (s.handleInstalled = false → cleanupScreenshot s = s) ∧
    restorePageAfterScreenshot (restorePageAfterScreenshot frames) =
      restorePageAfterScreenshot frames := by
  refine ⟨cleanup_cleanup s, ?_, ?_⟩
  · intro h
    simp [cleanupScreenshot, h]
  · induction frames with
    | nil => rfl
    | cons a l ih =>
      simp only [restorePageAfterScreenshot, List.map_cons] at *
      rw [cleanup_cleanup a, ih]

/-- Witness for the C9 theorem at a frame with no installed handle. -/
theorem cleanupScreenshot_idempotent_witness :
    cleanupScreenshot (cleanupScreenshot fs0) = cleanupScreenshot fs0 ∧
    cleanupScreenshot fs0 = fs0 :=
  ⟨(cleanupScreenshot_idempotent fs0 []).1,
   (cleanupScreenshot_idempotent fs0 []).2.1 rfl⟩

/-- One handler iteration preserves the per-animation invariant. -/
theorem handleOne_inv (a b : Animation) (s : AnimState) (h : CancelInv a s) :
    CancelInv a (handleOne s b) := by
  obtain ⟨h1, h2, h3⟩ := h
  unfold handleOne
  by_cases hskip : b.hasEffect = false ∨ b.playbackRate = 0 ∨ b ∈ s.suspended
  · rw [if_pos hskip]
    exact ⟨h1, h2, h3⟩
  · rw [if_neg hskip]
    by_cases hf : b.finiteEndTime = true
    · rw [if_pos hf]
      refine ⟨?_, ?_, ?_⟩
      · dsimp only
        rw [List.count_append]
        have hc0 : List.count (AnimAct.cancel a) [AnimAct.finish b] = 0 := by simp
        rw [hc0]
        simpa using h1
      · dsimp only
        intro hmem
        rcases List.mem_append.mp hmem with hmem | hmem
        · exact h2 hmem
        · simp at hmem
      · intro hbad
        obtain ⟨hc, hfin⟩ := h3 hbad
        constructor
        · dsimp only
          intro hmem
          rcases List.mem_append.mp hmem with hmem | hmem
          · exact hc hmem
          · simp at hmem
        · dsimp only
          intro hmem
          rcases List.mem_append.mp hmem with hmem | hmem
          · exact hfin hmem
          · simp only [List.mem_singleton, AnimAct.finish.injEq] at hmem
            subst hmem
            push_neg at hskip
            rcases hbad with hbad | hbad
            · exact absurd hbad (by simpa using hskip.1)
            · exact hskip.2.1 hbad
    · rw [if_neg hf]
      push_neg at hskip
      obtain ⟨hbe, hbr, hbs⟩ := hskip
      by_cases hab : a = b
      · subst hab
        have hnc : AnimAct.cancel a ∉ s.actions := fun hm => hbs (h2 hm)
        refine ⟨?_, ?_, ?_⟩
        · dsimp only
          rw [List.count_append, List.count_eq_zero_of_not_mem hnc]
          simp
        · intro _
          dsimp only
          exact List.mem_append_right _ (by simp)
        · intro hbad
          rcases hbad with hbad | hbad
          · exact absurd hbad (by simpa using hbe)
          · exact absurd hbad hbr
      · refine ⟨?_, ?_, ?_⟩
        · dsimp only
          rw [List.count_append]
          have hmem0 : AnimAct.cancel a ∉ [AnimAct.cancel b] := by
            intro hm
            simp only [List.mem_singleton, AnimAct.cancel.injEq] at hm
            exact hab hm
          rw [List.count_eq_zero_of_not_mem hmem0]
          simpa using h1
        · dsimp only
          intro hmem
          rcases List.mem_append.mp hmem with hmem | hmem
          · exact List.mem_append_left _ (h2 hmem)
          · simp only [List.mem_singleton, AnimAct.cancel.injEq] at hmem
            exact absurd hmem hab
        · intro hbad
          obtain ⟨hc, hfin⟩ := h3 hbad
          constructor
          · dsimp only
            intro hmem
            rcases List.mem_append.mp hmem with hmem | hmem
            · exact hc hmem
            · simp only [List.mem_singleton, AnimAct.cancel.injEq] at hmem
              exact hab hmem
          · dsimp only
            intro hmem
            rcases List.mem_append.mp hmem with hmem | hmem
            · exact hfin hmem
            · simp at hmem

/-- One handler invocation preserves the per-animation invariant. -/
theorem handleAnimations_inv (a : Animation) :
    ∀ (l : List Animation) (s : AnimState),
      CancelInv a s → CancelInv a (handleAnimations s l)
  | [], _, h => h
  | b :: rest, s, h =>
    handleAnimations_inv a rest (handleOne s b) (handleOne_inv a b s h)

/-- Any sequence of handler invocations preserves the invariant. -/
theorem handleAll_inv (a : Animation) :
    ∀ (invocations : List (List Animation)) (s : AnimState),
      CancelInv a s → CancelInv a (invocations.foldl handleAnimations s)
  | [], _, h => h
  | l :: rest, s, h =>
    handleAll_inv a rest (handleAnimations s l) (handleAnimations_inv a l s h)

/-- C10: across all handler invocations of one freeze installation, every
animation is cancelled at most once, a cancelled animation stays recorded
in the suspended set for resumption, and an animation with no effect or a
zero playback rate is never finished nor cancelled. -/
theorem animation_cancel_once (invocations : List (List Animation)) (a : Animation) :
    (handleAll invocations).actions.count (AnimAct.cancel a) ≤ 1 ∧
    (AnimAct.cancel a ∈ (handleAll invocations).actions →
      a ∈ (handleAll invocations).suspended) ∧
    ((a.hasEffect = false ∨ a.playbackRate = 0) →
      AnimAct.cancel a ∉ (handleAll invocations).actions ∧
      AnimAct.finish a ∉ (handleAll invocations).actions) :=
  handleAll_inv a invocations ⟨[], []⟩ ⟨by simp, by simp, by simp⟩

/-- Witness for the C10 theorem: a zero-playback-rate animation is never
finished nor cancelled across two handler invocations. -/
theorem animation_cancel_once_witness :
    (handleAll [[aInf, aFin, aBad], [aInf]]).actions.count (AnimAct.cancel aBad) ≤ 1 ∧
    AnimAct.cancel aBad ∉ (handleAll [[aInf, aFin, aBad], [aInf]]).actions ∧
    AnimAct.finish aBad ∉ (handleAll [[aInf, aFin, aBad], [aInf]]).actions :=
  ⟨(animation_cancel_once [[aInf, aFin, aBad], [aInf]] aBad).1,
   ((animation_cancel_once [[aInf, aFin, aBad], [aInf]] aBad).2.2 (Or.inr rfl)).1,
   ((animation_cancel_once [[aInf, aFin, aBad], [aInf]] aBad).2.2 (Or.inr rfl)).2⟩

end Screenshot
